import Mathlib

/-!
Verification development for the geoviews core: a shallow embedding of
`geoviews/operation.py` and `geoviews/element/geo.py`.

External collaborators (cartopy, numpy, holoviews, shapely) are modelled as
abstract primitives: the cartopy transforms are fields of `GV.GeoPrims`,
machine floats are replaced by exact rationals, and numpy arrays by lists.
-/

namespace GV

/-- Cartopy coordinate-reference-system handle, identified nominally.  Cartopy
CRS objects support equality comparison, which the identity fast paths use. -/
structure CRS where
  id : ℕ
deriving DecidableEq

/-- Cartopy CRS objects define neither a custom bool conversion nor a length, so
they are always truthy in Python. -/
def crs_truthy (_c : CRS) : Bool := true

/-- The value ccrs.PlateCarree(), the default of the _Element.crs parameter. -/
def plateCarree : CRS := ⟨0⟩

/-- The value ccrs.GOOGLE_MERCATOR. -/
def googleMercator : CRS := ⟨1⟩

/-- Python int() applied to a number (here an exact rational): truncation toward
zero, as numpy's astype(int) also performs. -/
def pyInt (q : ℚ) : ℤ := if 0 ≤ q then ⌊q⌋ else -⌊-q⌋

/-- np.linspace over exact rationals.  np.linspace(a, b, 0) is empty,
np.linspace(a, b, 1) is [a], and otherwise the i-th sample is
a + (b - a) * i / (num - 1).  Negative sample counts (rejected by numpy) yield
the empty list here; no property below depend on that case. -/
def linspace (a b : ℚ) (num : ℤ) : List ℚ :=
  if num ≤ 0 then []
  else if num = 1 then [a]
  else (List.range num.toNat).map fun i => a + (b - a) * i / (num - 1)

/-- A 2D numpy array of floats, as a list of rows. -/
abbrev Mat := List (List ℚ)

/-- Projected rectangle (four floats), the tuple shape used by project_extents
and warp_array. -/
abbrev Q4 := ℚ × ℚ × ℚ × ℚ

/-- Number of columns of a 2D array (length of its first row). -/
def ncols (m : Mat) : ℕ := (m.headD []).length

/-- np.flipud: reverse the rows. -/
def flipud (m : Mat) : Mat := m.reverse

/-- numpy integer-array indexing into a 2D array.  Real numpy wraps negative
indices and raises on out-of-range ones; neither behaviour is exercised by any
property below (no claim depends on the sampled values), so out-of-range
access is modelled by a default of 0. -/
def mat_get (m : Mat) (i j : ℤ) : ℚ := (m.getD i.toNat []).getD j.toNat 0

/-- Embedding of `.reshape((r, c)).T` applied to a flat row-major vector of
r * c samples: the result has c rows of length r, entry (j, i) being sample
i * c + j. -/
def reshape_T (r c : ℕ) (l : List ℚ) : Mat :=
  (List.range c).map fun j => (List.range r).map fun i => l.getD (i * c + j) 0

/-- np.hstack over a list of blocks that all have h rows: row i of the result
is the concatenation of the rows i of the blocks. -/
def hstack (h : ℕ) (ms : List Mat) : Mat :=
  (List.range h).map fun i => (ms.map fun m => m.getD i []).flatten

/-- holoviews cartesian_product([xs, ys]) flattened in row-major order:
pairs (x, y) with y varying fastest. -/
def cartesian_product (xs ys : List ℚ) : List (ℚ × ℚ) :=
  xs.flatMap fun cx => ys.map fun cy => (cx, cy)

/-- The four cartopy primitives the core calls, modelled abstractly (their
mathematics lives outside the repository):
project_extents (geoviews.util), CRS.transform_points (pointwise form; cartopy
vectorizes it over arrays and appends a z output that the core discards),
cartopy.img_transform.warp_array, and cartopy.img_transform._determine_bounds
(returning the x bands and the y bounds). -/
structure GeoPrims where
  project_extents : Q4 → CRS → CRS → Q4
  transform_point : CRS → CRS → ℚ → ℚ → ℚ × ℚ
  warp_array : Mat → CRS → CRS → ℕ × ℕ → Q4 → Q4 → Mat × Q4
  determine_bounds : List ℚ → List ℚ → CRS → List (ℚ × ℚ) × (ℚ × ℚ)

/-- A geoviews Image element as the raster operations see it: its crs, its 2D
value array (dimension_values(2, flat=False)), its coordinate arrays along both
axes (dimension_values(0) and (1)), and its per-axis ranges (range(0) and
range(1), the bounds l..r and b..t for a holoviews Image). -/
structure ImageEl where
  crs : CRS
  arr : Mat
  xs : List ℚ
  ys : List ℚ
  xrange : ℚ × ℚ
  yrange : ℚ × ℚ
deriving DecidableEq

/-- Pixel-centre coordinates that holoviews assigns to an Image constructed
from bounds (collaborator bookkeeping, only used to rebuild output elements;
no property below depends on it). -/
def bounds_centers (l r : ℚ) (n : ℕ) : List ℚ :=
  (List.range n).map fun i => l + (r - l) * (2 * i + 1) / (2 * n)

/-- Embedding of project_image._process (operation.py lines 72-88): the
accurate raster path.  If the target projection equals the element's crs the
element itself is returned; otherwise the array is warped onto the projected
extent and flipped vertically, and a new Image with the warp's returned bounds
and the target crs is built. -/
def project_image (prims : GeoPrims) (proj : CRS) (img : ImageEl) : ImageEl :=
  if proj = img.crs then img
  else
    let arr := img.arr
    let x0 := img.xrange.1
    let x1 := img.xrange.2
    let y0 := img.yrange.1
    let y1 := img.yrange.2
    -- xn, yn = arr.shape
    let xn := arr.length
    let yn := ncols arr
    let pe := prims.project_extents (x0, y0, x1, y1) img.crs proj
    let res := prims.warp_array arr proj img.crs (xn, yn) (x0, x1, y0, y1)
      (pe.1, pe.2.2.1, pe.2.1, pe.2.2.2)
    let projected := res.1
    let extents := res.2
    -- bounds = (extents[0], extents[2], extents[1], extents[3]) = (l, b, r, t)
    let data := flipud projected
    { crs := proj, arr := data,
      xs := bounds_centers extents.1 extents.2.2.1 (ncols data),
      ys := bounds_centers extents.2.1 extents.2.2.2 data.length,
      xrange := (extents.1, extents.2.2.1),
      yrange := (extents.2.1, extents.2.2.2) }

/-- The per-band output-width computation of project_image_fast._process
(operation.py lines 133-134): xfraction = (xb[1] - xb[0]) / (x1 - x0) and
fraction_width = int(width * xfraction). -/
def fast_fraction_width (width : ℤ) (x0 x1 : ℚ) (xb : ℚ × ℚ) : ℤ :=
  let xfraction := (xb.2 - xb.1) / (x1 - x0)
  pyInt (width * xfraction)

/-- One iteration of the band loop of project_image_fast._process
(operation.py lines 131-144).  Returns the band's projected x coordinates, its
projected y coordinates and its resampled block of shape
(height, fraction_width).  w and h are the source pixel counts. -/
def fast_band (prims : GeoPrims) (el : ImageEl) (proj : CRS) (width height : ℤ)
    (w h : ℕ) (yb : ℚ × ℚ) (xb : ℚ × ℚ) : List ℚ × List ℚ × Mat :=
  let x0 := el.xrange.1
  let x1 := el.xrange.2
  let y0 := el.yrange.1
  let y1 := el.yrange.2
  let pe := prims.project_extents (xb.1, yb.1, xb.2, yb.2) el.crs proj
  let px0 := pe.1
  let py0 := pe.2.1
  let px1 := pe.2.2.1
  let py1 := pe.2.2.2
  let fraction_width := fast_fraction_width width x0 x1 xb
  let xs := linspace px0 px1 fraction_width
  let ys := linspace py0 py1 height
  let cpts := cartesian_product xs ys
  -- pxs, pys, _ = element.crs.transform_points(proj, cxs, cys).T
  let pts := cpts.map fun p => prims.transform_point el.crs proj p.1 p.2
  let samples := pts.map fun p =>
    let icx := pyInt ((p.1 - x0) / (x1 - x0) * w)
    let icy := pyInt ((p.2 - y0) / (y1 - y0) * h)
    mat_get el.arr icy icx
  (xs, ys, reshape_T fraction_width.toNat height.toNat samples)

/-- Embedding of project_image_fast._process (operation.py lines 112-148).
If the target projection equals the element's crs the element is returned
unchanged.  Otherwise the source extent is split into bands by
_determine_bounds, every band is resampled independently, and the per-band
coordinate arrays and blocks are concatenated in reverse traversal order.  The
Python variable ys holds the last band's projected y coordinates after the
loop (or, when the loop never runs, the source y coordinates read before it);
the output element's ranges are the collaborator grid-interface bookkeeping
over the produced coordinates and are not used by any property below. -/
def project_image_fast (prims : GeoPrims) (p_width p_height : Option ℤ)
    (proj : CRS) (element : ImageEl) : ImageEl :=
  if proj = element.crs then element
  else
    -- h, w = element.interface.shape(element, gridded=True)
    let h := element.ys.length
    let w := element.xs.length
    let width := p_width.getD (w : ℤ)
    let height := p_height.getD (h : ℤ)
    let bounds := prims.determine_bounds element.xs element.ys element.crs
    let yb := bounds.2
    let bandResults := bounds.1.map (fast_band prims element proj width height w h yb)
    let xvalues := bandResults.map fun r => r.1
    let resampled := bandResults.map fun r => r.2.2
    let xsOut := (xvalues.reverse).flatten
    let ysOut := (bandResults.map fun r => r.2.1).getLastD element.ys
    let arrOut := hstack height.toNat resampled.reverse
    { crs := proj, arr := arrOut, xs := xsOut, ys := ysOut,
      xrange := (xsOut.headD 0, xsOut.getLastD 0),
      yrange := (ysOut.headD 0, ysOut.getLastD 0) }

/-! Embedding of geoviews/element/geo.py. -/

/-- The value actually passed as the new_type argument of _Element.clone
(geo.py lines 95-100): None, or an element class object, which either is or is
not a subclass of _Element (CRS-aware). -/
inductive NewTypeArg
  | none_
  | cls (crs_aware : Bool)
deriving DecidableEq

/-- Python truthiness of the new_type argument: None is falsy, a class object
is truthy. -/
def NewTypeArg.truthy : NewTypeArg → Bool
  | .none_ => false
  | .cls _ => true

/-- The test isinstance(new_type, _Element) of geo.py line 97.  new_type is
None or a class object; a class object is an instance of its metaclass
(type / param.ParameterizedMetaclass), never of _Element, so the test is False
for every value clone is actually called with (an issubclass test would be the
one matching the documented intent). -/
def isinstance_of_Element (_t : NewTypeArg) : Bool := false

/-- Embedding of the crs bookkeeping of _Element.clone (geo.py lines 95-100):
the value of overrides['crs'] after the conditional insertion (none models an
absent key, i.e. the clone falls back to the class default CRS). -/
def clone_overrides_crs (self_crs : CRS) (new_type : NewTypeArg)
    (ov_crs : Option CRS) : Option CRS :=
  if ov_crs.isNone && (!new_type.truthy || isinstance_of_Element new_type) then
    some self_crs
  else ov_crs

/-- The payload kinds _Element.__init__ (geo.py lines 76-92) inspects for an
inferable CRS, after unwrapping a holoviews Dataset to its .data: an iris Cube
(whose coordinate system carries a cartopy projection only when it has
as_cartopy_projection), a cartopy Feature, a cartopy GoogleTiles source, or
anything else. -/
inductive InitPayload
  | cube (proj : Option CRS)
  | feature (crs : CRS)
  | tiles (crs : CRS)
  | other
deriving DecidableEq

/-- The crs value geo.py lines 77-84 infer from the payload. -/
def inferred_crs : InitPayload → Option CRS
  | .cube p => p
  | .feature c => some c
  | .tiles c => some c
  | .other => none

/-- Embedding of the crs validation of _Element.__init__ (geo.py lines 76-92):
the kwargs['crs'] entry passed on to the superclass (none models an absent key,
which the crs parameter then fills with its PlateCarree default), or the
CRS-mismatch ValueError.  CRS objects are truthy, so the Python truthiness
tests on supplied_crs and crs are isSome tests here. -/
def element_init_crs (data : InitPayload) (supplied : Option CRS) :
    Except String (Option CRS) :=
  let crs := inferred_crs data
  if supplied.isSome ∧ crs.isSome ∧ crs ≠ supplied then
    .error "Supplied coordinate reference system must match crs of the data."
  else if crs.isSome then .ok crs
  else .ok supplied

/-- The members of the (tuple-wrapped) data argument of WMTS.__init__
(geo.py lines 151-168): a bokeh WMTSTileSource, a raw owslib
WebMapTileService handle, a URL string, or anything else. -/
inductive TileDatum
  | tileSource
  | wmtsService
  | url (s : String)
  | other
deriving DecidableEq

/-- Reading self.crs before super().__init__ has run returns the class default
of the crs parameter, ccrs.PlateCarree() (param descriptors fall back to the
class default for uninitialized instances). -/
def wmts_self_crs_default : CRS := plateCarree

/-- Embedding of the data loop of WMTS.__init__ (geo.py lines 157-168) over
the tuple-wrapped data: the params['crs'] entry handed to the superclass, or
the raised exception.  The missing-CRS guard is
'crs' not in params and not self.crs. -/
def wmts_init_loop (params_crs : Option CRS) :
    List TileDatum → Except String (Option CRS)
  | [] => .ok params_crs
  | d :: ds =>
    match d with
    | .tileSource =>
      wmts_init_loop (if params_crs.isNone then some googleMercator else params_crs) ds
    | .wmtsService =>
      if params_crs.isNone ∧ ¬ crs_truthy wmts_self_crs_default then
        .error "Must supply coordinate reference system with cartopy WMTS URL."
      else wmts_init_loop params_crs ds
    | .url _ => wmts_init_loop params_crs ds
    | .other => .error "data has to be a tile service URL"

/-- WMTS.__init__ (geo.py lines 151-168): data not already a tuple is wrapped
into a one-element tuple (the list argument here), then the loop above runs. -/
def wmts_init (data : List TileDatum) (params_crs : Option CRS) :
    Except String (Option CRS) :=
  wmts_init_loop params_crs data

/-- A Python value stored in a record attribute or a dataset cell.  nan is a
token for np.NaN; its IEEE non-reflexive equality is not modelled and no
property below depends on comparing it. -/
inductive Val
  | none_
  | nan
  | num (q : ℚ)
  | str (s : String)
deriving DecidableEq

/-- A dataset row, as an association list from dimension name to value. -/
abbrev DRow := List (String × Val)

/-- Reading column d of a row (row[d][0] on a one-row selection). -/
def rowGet (row : DRow) (d : String) : Val := (row.lookup d).getD Val.none_

/-- A holoviews Dataset as from_records consumes it: its dimension names in
declaration order and its rows. -/
structure DSet where
  dims : List String
  rows : List DRow
deriving DecidableEq

/-- Dataset.get_dimension on a name: the dimension if present, else None (the
dimension objects carry no state beyond their name in this model). -/
def DSet.get_dimension (ds : DSet) (d : String) : Option String :=
  if d ∈ ds.dims then some d else none

/-- Dataset.select with scalar values: keeps the rows whose cells equal every
selection entry. -/
def DSet.select (ds : DSet) (sel : List (String × Val)) : DSet :=
  { ds with rows := ds.rows.filter fun r => sel.all fun dv => rowGet r dv.1 == dv.2 }

/-- Python truthiness of the dataset argument: None is falsy, and a holoviews
Dataset defines __len__ as its row count, so an empty dataset is falsy too. -/
def dsTruthy : Option DSet → Bool
  | some ds => !ds.rows.isEmpty
  | none => false

/-- get_dimension through the optional dataset argument, for the value lookup
(value may be None, and get_dimension(None) is None). -/
def dsGetDim (d : Option DSet) (v : Option String) : Option String :=
  match d, v with
  | some ds, some n => ds.get_dimension n
  | _, _ => none

/-- A cartopy.io.shapereader.Record: an attribute dictionary and a geometry
(opaque here). -/
structure SRecord where
  attributes : List (String × Val)
  geometry : ℕ
deriving DecidableEq

/-- A Shape element as from_records constructs it: the wrapped geometry, the
level keyword (Val.none_ models the parameter default None) and the vdims
keyword (the dataset's value dimension, when one was resolved). -/
structure ShapeOut where
  geometry : ℕ
  level : Val
  vdims_kw : Option String
deriving DecidableEq

/-- The NdOverlay from_records returns: its key dimension names and its
(key, Shape) pairs; a key component of none models a None key entry. -/
structure Overlay where
  kdims : List String
  data : List (List (Option Val) × ShapeOut)
deriving DecidableEq

/-- The merge selection of geo.py lines 401-402:
{dim: rec.attributes.get(attr, None) for attr, dim in on.items()}. -/
def selection_of (onMap : List (String × String)) (rec : SRecord) :
    List (String × Val) :=
  onMap.map fun ad => (ad.2, (rec.attributes.lookup ad.1).getD Val.none_)

/-- One iteration of the record loop of Shape.from_records (geo.py lines
399-425) at enumeration index i: none models the continue that drops the
record, otherwise the (key, Shape) pair plus whether a key component was not
found.  The row variable is only read under guards that imply the dataset was
truthy, matching the Python short-circuit evaluation. -/
def from_records_step (dataset : Option DSet) (onMap : List (String × String))
    (vdim : Option String) (ddims : List String) (index : List String)
    (kdims : List String) (drop_missing : Bool) (vdims_kw : Option String)
    (i : ℕ) (rec : SRecord) : Option (List (Option Val) × ShapeOut × Bool) :=
  let rows := if dsTruthy dataset then
      ((dataset.getD ⟨[], []⟩).select (selection_of onMap rec)).rows
    else []
  if dsTruthy dataset && rows.isEmpty && drop_missing then none
  else
    let level := if dsTruthy dataset then
        (if !rows.isEmpty then rowGet (rows.headD []) (vdim.getD "") else Val.nan)
      else Val.none_
    let keynf : List (Option Val) × Bool :=
      if index ≠ [] then
        let comps := kdims.map fun kdim =>
          if kdim ∈ ddims ∧ !rows.isEmpty then some (rowGet (rows.headD []) kdim)
          else if (rec.attributes.lookup kdim).isSome then
            some ((rec.attributes.lookup kdim).getD Val.none_)
          else none
        (comps, comps.any fun c => c.isNone)
      else ([some (Val.num i)], false)
    some (keynf.1, ⟨rec.geometry, level, vdims_kw⟩, keynf.2)

/-- The record loop of Shape.from_records, accumulating the data list and the
notfound flag. -/
def from_records_loop (dataset : Option DSet) (onMap : List (String × String))
    (vdim : Option String) (ddims : List String) (index : List String)
    (kdims : List String) (drop_missing : Bool) (vdims_kw : Option String) :
    ℕ → List SRecord → List (List (Option Val) × ShapeOut) × Bool
  | _, [] => ([], false)
  | i, rec :: rest =>
    let r := from_records_step dataset onMap vdim ddims index kdims drop_missing
      vdims_kw i rec
    let restRes := from_records_loop dataset onMap vdim ddims index kdims
      drop_missing vdims_kw (i + 1) rest
    match r with
    | none => restRes
    | some (k, s, nf) => ((k, s) :: restRes.1, nf || restRes.2)

/-- The notfound post-processing of Shape.from_records (geo.py lines 426-429):
when some key component was not found, an Index dimension is prepended and
every key gets a fresh enumeration index. -/
def overlay_of (kdims : List String)
    (res : List (List (Option Val) × ShapeOut) × Bool) : Overlay :=
  if res.2 then
    ⟨"Index" :: kdims, res.1.enum.map fun p => (some (Val.num p.1) :: p.2.1, p.2.2)⟩
  else ⟨kdims, res.1⟩

/-- Embedding of Shape.from_records (geo.py lines 337-429).  The on argument
models the normalized mapping (None, an empty dict and an empty list are all
falsy and all model as []; a list [a, b] models as [(a, a), (b, b)]); index
models the normalized index list.  Dimension objects carry only their name, so
the dataset-held-dimension branch of the kdims computation yields the same
name as the fresh-Dimension branch. -/
def from_records (records : List SRecord) (dataset : Option DSet)
    (onMap : List (String × String)) (value : Option String)
    (index : List String) (drop_missing : Bool) : Except String Overlay :=
  if dataset.isSome ∧ onMap = [] then
    .error "To merge dataset with shapes mapping must define attribute(s) to merge on."
  else
    let kdims := (if index ≠ [] then index else ["Index"]).map fun ind =>
      if dsTruthy dataset ∧ ((dataset.getD ⟨[], []⟩).get_dimension ind).isSome
      then ind else ind
    if dsTruthy dataset ∧ (dsGetDim dataset value).isNone then
      .error "Value dimension not found in dataset."
    else
      let vdim := dsGetDim dataset value
      let vdims_kw := if dsTruthy dataset then vdim else none
      let ddims := if dsTruthy dataset then (dataset.getD ⟨[], []⟩).dims else []
      .ok (overlay_of kdims (from_records_loop dataset onMap vdim ddims index kdims
        drop_missing vdims_kw 0 records))

/-- A holoviews Dimension as Shape.range and Shape.dimension_values see it:
its name and its declared range attribute ((none_, none_) when unset). -/
structure SDim where
  name : String
  range : Val × Val
deriving DecidableEq

/-- The state of a Shape element read by its accessors: its dimensions, its
level parameter and its wrapped geometry's bounds (l, b, r, t). -/
structure ShapeSelf where
  kdims : List SDim
  vdims : List SDim
  level : Val
  bounds : Q4
deriving DecidableEq

/-- All dimensions of the element, key dimensions first. -/
def ShapeSelf.dims (s : ShapeSelf) : List SDim := s.kdims ++ s.vdims

/-- get_dimension by integer index over the element's dimensions. -/
def ShapeSelf.get_dimension (s : ShapeSelf) (i : ℕ) : Option SDim :=
  s.dims.get? i

/-- get_dimension_index: the position of the (name-identified) dimension in
the element's dimension list. -/
def ShapeSelf.get_dimension_index (s : ShapeSelf) (d : SDim) : ℕ :=
  s.dims.findIdx fun x => x.name == d.name

/-- holoviews.core.util.dimension_range: with no soft range declared on the
dimension it returns the data range unchanged; soft ranges are not part of
this model. -/
def dimension_range (lower upper : ℚ) (_dim : SDim) : Val × Val :=
  (Val.num lower, Val.num upper)

/-- Embedding of Shape.dimension_values (geo.py lines 432-440): the level for
a value dimension, an empty sequence otherwise (dimension membership in vdims
is holoviews Dimension equality, which is name-based here; a None result of
get_dimension is in no list). -/
def ShapeSelf.dimension_values (s : ShapeSelf) (d : ℕ) : List Val :=
  match s.get_dimension d with
  | none => []
  | some dim => if s.vdims.any fun x => x.name == dim.name then [s.level] else []

/-- Embedding of Shape.range (geo.py lines 443-456).  sup is the value the
superclass range call would return (collaborator behaviour, reached only
outside the handled dimension indices or with data_range false); the
unreachable get_dimension-None case (an AttributeError in Python) is given the
arbitrary value sup and is excluded by the hypotheses of every property
below. -/
def ShapeSelf.range (sup : Val × Val) (s : ShapeSelf) (d : ℕ)
    (data_range : Bool) : Val × Val :=
  match s.get_dimension d with
  | none => sup
  | some dim =>
    if dim.range ≠ (Val.none_, Val.none_) then dim.range
    else
      let idx := s.get_dimension_index dim
      if idx = 2 ∧ data_range then (s.level, s.level)
      else if (idx = 0 ∨ idx = 1) ∧ data_range then
        if idx = 1 then dimension_range s.bounds.2.1 s.bounds.2.2.2 dim
        else dimension_range s.bounds.1 s.bounds.2.2.1 dim
      else sup

/-- A geoviews Points element as project_points sees it: its dimension names
in declaration order, its columns() dictionary (an insertion-ordered
association list from dimension name to column) and its crs. -/
structure PointsEl where
  dims : List String
  cols : List (String × List ℚ)
  crs : CRS
deriving DecidableEq

/-- Reading a column of the columns() dictionary. -/
def colGet (cols : List (String × List ℚ)) (n : String) : List ℚ :=
  (cols.lookup n).getD []

/-- Python dict update new_data[name] = v: an existing key keeps its position,
a new key is appended. -/
def updateCol (cols : List (String × List ℚ)) (n : String) (v : List ℚ) :
    List (String × List ℚ) :=
  if (cols.lookup n).isSome then
    cols.map fun p => if p.1 = n then (n, v) else p
  else cols ++ [(n, v)]

/-- Embedding of project_points._process_element (operation.py lines 43-51):
the first two dimensions are the positional ones, their columns are
transformed pointwise (the vectorized cartopy transform_points), and the
transformed x and y are written back into the same named columns of a clone
of the columns dictionary. -/
def project_points (prims : GeoPrims) (proj : CRS) (el : PointsEl) : PointsEl :=
  let xdim := el.dims.getD 0 ""
  let ydim := el.dims.getD 1 ""
  let xs := colGet el.cols xdim
  let ys := colGet el.cols ydim
  let coordinates := List.zipWith (fun x y => prims.transform_point proj el.crs x y) xs ys
  let nd1 := updateCol el.cols xdim (coordinates.map Prod.fst)
  let new_data := updateCol nd1 ydim (coordinates.map Prod.snd)
  { dims := el.dims, cols := new_data, crs := proj }

/-- The element classes is_geographic (geo.py lines 37-58) distinguishes:
WMTS, Feature, any other _Element subclass, and non-geoviews elements. -/
inductive GClass
  | wmts
  | feature
  | geoElement
  | plain
deriving DecidableEq

/-- A leaf element as is_geographic inspects it: its class, whether its data
payload is one of the geographic_types, its key dimension names, all its
dimension names (searched by get_dimension) and its crs. -/
structure LeafEl where
  cls : GClass
  data_geographic : Bool
  kdims : List String
  dims : List String
  crs : CRS
deriving DecidableEq

/-- An element possibly wrapped in NdOverlay layers; an overlay records its
members, its last member (element.last) and its own key dimension names. -/
inductive GEl
  | leaf (e : LeafEl)
  | overlay (elems : List GEl) (last : GEl) (kdims : List String)

/-- element.kdims. -/
def GEl.kdimsOf : GEl → List String
  | .leaf e => e.kdims
  | .overlay _ _ k => k

/-- The dimension names element.get_dimension searches (an overlay's are its
key dimensions in this model). -/
def GEl.dimsOf : GEl → List String
  | .leaf e => e.dims
  | .overlay _ _ k => k

/-- isinstance(element.data, geographic_types): an NdOverlay's data is its
item dictionary, never a geographic payload. -/
def GEl.dataGeo : GEl → Bool
  | .leaf e => e.data_geographic
  | .overlay _ _ _ => false

/-- isinstance(element, (WMTS, Feature)). -/
def GEl.isWmtsOrFeature : GEl → Bool
  | .leaf e => e.cls == .wmts || e.cls == .feature
  | .overlay _ _ _ => false

/-- isinstance(element, _Element); WMTS and Feature are _Element subclasses,
an NdOverlay is not. -/
def GEl.isGeoElem : GEl → Bool
  | .leaf e => e.cls != .plain
  | .overlay _ _ _ => false

/-- element.crs; an overlay has no crs attribute, but the access is guarded by
the isinstance test, so the value here is never reached. -/
def GEl.crsOf : GEl → CRS
  | .leaf e => e.crs
  | .overlay _ _ _ => plateCarree

/-- Whether the element is an NdOverlay. -/
def GEl.isOverlay : GEl → Bool
  | .leaf _ => false
  | .overlay _ _ _ => true

/-- The body of is_geographic after the NdOverlay unwrapping (geo.py lines
46-58).  An explicitly passed kdims list resolves each name through
get_dimension (None for a missing name); an absent or empty list (both falsy)
selects the element's own key dimensions.  The returned Python value in the
_Element branch is element.crs or False, whose truthiness is modelled by the
Bool result (CRS objects are truthy). -/
def is_geographic_body (el : GEl) (kdims : List String) : Bool :=
  let kd : List (Option String) :=
    if kdims ≠ [] then kdims.map fun d => if d ∈ el.dimsOf then some d else none
    else el.kdimsOf.map some
  if kd.length ≠ 2 then false
  else if el.dataGeo || el.isWmtsOrFeature then true
  else if el.isGeoElem then (kd == el.kdimsOf.map some) && crs_truthy el.crsOf
  else false

/-- Embedding of is_geographic (geo.py lines 37-58): an NdOverlay is replaced
by its last member, then the body runs. -/
def is_geographic (element : GEl) (kdims : List String) : Bool :=
  let el := match element with
    | .overlay _ l _ => l
    | e => e
  is_geographic_body el kdims

/-- The number of selected key dimensions the length test of geo.py line 51
sees: the explicit kdims when given, else the (unwrapped) element's own. -/
def selected_kdim_count (element : GEl) (kdims : List String) : ℕ :=
  let el := match element with
    | .overlay _ l _ => l
    | e => e
  if kdims ≠ [] then kdims.length else el.kdimsOf.length

/-! Concrete instances used by the closed evaluations below. -/

/-- A concrete instantiation of the cartopy primitives: extents project to
themselves and points transform to themselves, and determine_bounds reports
the two longitude bands that cartopy computes for the antimeridian-crossing
PlateCarree raster cImg below (pixel centres 91..269 step 2, half a pixel =
1: bands [min - 1, 180] and [-180, max - 360 + 1]). -/
def cPrims : GeoPrims where
  project_extents := fun r _ _ => r
  transform_point := fun _ _ x y => (x, y)
  warp_array := fun m _ _ _ _ te => (m, te)
  determine_bounds := fun _ _ _ => ([(90, 180), (-180, -90)], (0, 1))

/-- A 90-pixel-wide, one-pixel-high PlateCarree raster straddling the
antimeridian: pixel centres at longitudes 91, 93, ..., 269, bounds 90..270
horizontally and 0..1 vertically. -/
def cImg : ImageEl :=
  { crs := plateCarree,
    arr := [(List.range 90).map fun i => (i : ℚ)],
    xs := (List.range 90).map fun i => 91 + 2 * (i : ℚ),
    ys := [(1 : ℚ) / 2],
    xrange := (90, 270), yrange := (0, 1) }

/-- A one-row dataset with an id key and a pop value column. -/
def wDataset : DSet := ⟨["id", "pop"], [[("id", .num 1), ("pop", .num 10)]]⟩

/-- A record whose id attribute matches the dataset row. -/
def wRecord1 : SRecord := ⟨[("id", .num 1)], 101⟩

/-- A record whose id attribute matches no dataset row. -/
def wRecord2 : SRecord := ⟨[("id", .num 2)], 102⟩

/-- A dataset with an id dimension and no rows (falsy in Python). -/
def wEmptyDataset : DSet := ⟨["id"], []⟩

/-- A Shape element with default dimensions, no stored ranges and scalar
level 7. -/
def wShape : ShapeSelf :=
  { kdims := [⟨"Longitude", (.none_, .none_)⟩, ⟨"Latitude", (.none_, .none_)⟩],
    vdims := [⟨"Level", (.none_, .none_)⟩],
    level := .num 7, bounds := (0, 0, 1, 1) }

/-- A two-row Points element with one value column. -/
def wPoints : PointsEl :=
  { dims := ["Longitude", "Latitude", "v"],
    cols := [("Longitude", [1, 2]), ("Latitude", [3, 4]), ("v", [9, 9])],
    crs := plateCarree }

/-- A CRS-aware leaf element with the two default key dimensions. -/
def wLeaf : LeafEl :=
  ⟨.geoElement, false, ["Longitude", "Latitude"], ["Longitude", "Latitude", "z"],
    plateCarree⟩

/-- A non-geoviews leaf element with a single key dimension. -/
def wLeaf1 : LeafEl := ⟨.plain, false, ["x"], ["x"], plateCarree⟩

/-! Helper lemmas. -/

theorem pyInt_of_nonneg {q : ℚ} (h : 0 ≤ q) : pyInt q = ⌊q⌋ := if_pos h

theorem pyInt_nonneg {q : ℚ} (h : 0 ≤ q) : 0 ≤ pyInt q := by
  rw [pyInt_of_nonneg h]
  exact Int.floor_nonneg.mpr h

theorem sum_map_div {α : Type} (l : List α) (f : α → ℚ) (c : ℚ) :
    (l.map fun b => f b / c).sum = (l.map f).sum / c := by
  induction l with
  | nil => simp
  | cons a t ih => simp [ih, add_div]

theorem sum_map_mul_left {α : Type} (l : List α) (f : α → ℚ) (c : ℚ) :
    (l.map fun x => c * f x).sum = c * (l.map f).sum := by
  induction l with
  | nil => simp
  | cons a t ih => simp [ih, mul_add]

theorem sum_floor_le {α : Type} (l : List α) (g : α → ℚ) :
    (l.map fun x => ⌊g x⌋).sum ≤ ⌊(l.map g).sum⌋ := by
  induction l with
  | nil => simp
  | cons a t ih =>
    simp only [List.map_cons, List.sum_cons]
    have h2 : ⌊g a⌋ + ⌊(t.map g).sum⌋ ≤ ⌊g a + (t.map g).sum⌋ := by
      rw [Int.le_floor]
      push_cast
      exact add_le_add (Int.floor_le _) (Int.floor_le _)
    omega

theorem sum_sub_length_le_sum_floor {α : Type} (l : List α) (g : α → ℚ) :
    (l.map g).sum - l.length ≤ (((l.map fun x => ⌊g x⌋).sum : ℤ) : ℚ) := by
  induction l with
  | nil => simp
  | cons a t ih =>
    simp only [List.map_cons, List.sum_cons, List.length_cons]
    have h1 : g a - 1 < (⌊g a⌋ : ℚ) := Int.sub_one_lt_floor _
    push_cast
    push_cast at ih
    linarith

theorem sum_floor_gt {α : Type} (l : List α) (g : α → ℚ) (hl : l ≠ []) :
    (l.map g).sum - l.length < (((l.map fun x => ⌊g x⌋).sum : ℤ) : ℚ) := by
  match l with
  | a :: t =>
    have ih := sum_sub_length_le_sum_floor t g
    have h1 : g a - 1 < (⌊g a⌋ : ℚ) := Int.sub_one_lt_floor _
    simp only [List.map_cons, List.sum_cons, List.length_cons]
    push_cast
    push_cast at ih
    linarith

theorem sum_toNat_of_nonneg {α : Type} (l : List α) (f : α → ℤ)
    (h : ∀ x ∈ l, 0 ≤ f x) :
    (l.map fun x => (f x).toNat).sum = ((l.map f).sum).toNat := by
  induction l with
  | nil => rfl
  | cons a t ih =>
    have ha := h a (List.mem_cons_self a t)
    have ht : 0 ≤ (t.map f).sum := List.sum_nonneg (by
      intro x hx
      obtain ⟨y, hy, rfl⟩ := List.mem_map.mp hx
      exact h y (List.mem_cons_of_mem a hy))
    simp only [List.map_cons, List.sum_cons,
      ih fun x hx => h x (List.mem_cons_of_mem a hx)]
    omega

theorem ncols_hstack (h : ℕ) (hh : 0 < h) (ms : List Mat) :
    ncols (hstack h ms) = (ms.map fun m => (m.getD 0 []).length).sum := by
  obtain ⟨h2, rfl⟩ : ∃ h2, h = h2 + 1 := ⟨h - 1, by omega⟩
  simp only [ncols, hstack, List.range_succ_eq_map, List.map_cons, List.headD_cons,
    List.length_flatten, List.map_map]
  rfl

theorem reshape_T_zero_row (r c : ℕ) (hc : 0 < c) (l : List ℚ) :
    ((reshape_T r c l).getD 0 []).length = r := by
  obtain ⟨c2, rfl⟩ : ∃ c2, c = c2 + 1 := ⟨c - 1, by omega⟩
  simp [reshape_T, List.range_succ_eq_map]

theorem fast_band_block_width (prims : GeoPrims) (el : ImageEl) (proj : CRS)
    (width height : ℤ) (w h : ℕ) (yb xb : ℚ × ℚ) (hh : 0 < height.toNat) :
    (((fast_band prims el proj width height w h yb xb).2.2).getD 0 []).length =
      (fast_fraction_width width el.xrange.1 el.xrange.2 xb).toNat := by
  unfold fast_band
  exact reshape_T_zero_row _ _ hh _

theorem project_image_fast_arr (prims : GeoPrims) (el : ImageEl) (proj : CRS)
    (W H : ℤ) (hcrs : ¬ proj = el.crs) :
    (project_image_fast prims (some W) (some H) proj el).arr =
      hstack H.toNat
        (((prims.determine_bounds el.xs el.ys el.crs).1.map
          (fast_band prims el proj W H el.xs.length el.ys.length
            (prims.determine_bounds el.xs el.ys el.crs).2)).map fun r => r.2.2).reverse := by
  rw [project_image_fast, if_neg hcrs]
  rfl

/-! Theorems for the claims. -/

/-- C2: if the requested projection equals the element's crs, both the
accurate raster path project_image and the fast raster path
project_image_fast return the input element itself unchanged. -/
theorem raster_identity_fast_path (prims : GeoPrims) (pW pH : Option ℤ)
    (proj : CRS) (img : ImageEl) (h : proj = img.crs) :
    project_image prims proj img = img ∧
      project_image_fast prims pW pH proj img = img := by
  constructor
  · rw [project_image, if_pos h]
  · rw [project_image_fast, if_pos h]

/-- C2 witness: the identity fast paths on a concrete raster. -/
theorem raster_identity_fast_path_witness :
    project_image cPrims plateCarree cImg = cImg ∧
      project_image_fast cPrims none none plateCarree cImg = cImg :=
  raster_identity_fast_path cPrims none none plateCarree cImg rfl

/-- C1 counterexample: a two-band antimeridian raster with requested output
width 3.  Each band covers half the source extent, so the fractional
allocations sum to exactly 1, yet each band is truncated to
int(3 * 1/2) = 1 columns and the concatenated output is 2 columns wide, not
the requested 3. -/
theorem fast_width_counterexample :
    ncols (project_image_fast cPrims (some 3) (some 1) googleMercator cImg).arr = 2
    ∧ (([((90 : ℚ), (180 : ℚ)), (-180, -90)].map
        fun b => (b.2 - b.1) / ((270 : ℚ) - 90)).sum = 1)
    ∧ (2 : ℕ) ≠ 3 := by
  refine ⟨?_, by norm_num, by decide⟩
  rw [project_image_fast_arr cPrims cImg googleMercator 3 1 (by decide),
    ncols_hstack _ (by decide)]
  rw [show (cPrims.determine_bounds cImg.xs cImg.ys cImg.crs).1 =
    [((90 : ℚ), (180 : ℚ)), (-180, -90)] from rfl]
  simp only [List.map_cons, List.map_nil, List.reverse_cons, List.reverse_nil,
    List.nil_append, List.cons_append, List.sum_cons, List.sum_nil]
  rw [fast_band_block_width _ _ _ _ _ _ _ _ _ (by decide),
    fast_band_block_width _ _ _ _ _ _ _ _ _ (by decide)]
  rw [show cImg.xrange = ((90 : ℚ), (270 : ℚ)) from rfl]
  norm_num [fast_fraction_width, pyInt]

/-- C1 (amended): for a fast-path run whose bands partition the source
x-extent, the fractional width allocations sum to exactly 1, and the
concatenated output width equals the sum of the truncated per-band widths
int(width * xfraction), a total that never exceeds the requested width and
falls short of it by less than one pixel per band, but need not equal it. -/
theorem fast_width_allocation
    (prims : GeoPrims) (el : ImageEl) (proj : CRS) (W H : ℤ)
    (x0 x1 : ℚ) (bands : List (ℚ × ℚ))
    (hcrs : proj ≠ el.crs)
    (hxr : el.xrange = (x0, x1))
    (hx : x0 < x1)
    (hbands : (prims.determine_bounds el.xs el.ys el.crs).1 = bands)
    (hmono : ∀ b ∈ bands, b.1 ≤ b.2)
    (hcover : (bands.map fun b => b.2 - b.1).sum = x1 - x0)
    (hW : 0 ≤ W) (hH : 0 < H) :
    ((bands.map fun b => (b.2 - b.1) / (x1 - x0)).sum = 1)
    ∧ ncols (project_image_fast prims (some W) (some H) proj el).arr =
        ((bands.map (fast_fraction_width W x0 x1)).sum).toNat
    ∧ (bands.map (fast_fraction_width W x0 x1)).sum ≤ W
    ∧ W - bands.length < (bands.map (fast_fraction_width W x0 x1)).sum := by
  have hxd : (0 : ℚ) < x1 - x0 := by linarith
  have hfrac1 : (bands.map fun b => (b.2 - b.1) / (x1 - x0)).sum = 1 := by
    rw [sum_map_div, hcover, div_self (ne_of_gt hxd)]
  have harg : ∀ b ∈ bands, 0 ≤ (W : ℚ) * ((b.2 - b.1) / (x1 - x0)) := by
    intro b hb
    exact mul_nonneg (by exact_mod_cast hW)
      (div_nonneg (by linarith [hmono b hb]) (le_of_lt hxd))
  have hfwfloor : ∀ b ∈ bands,
      fast_fraction_width W x0 x1 b = ⌊(W : ℚ) * ((b.2 - b.1) / (x1 - x0))⌋ := by
    intro b hb
    unfold fast_fraction_width
    exact pyInt_of_nonneg (harg b hb)
  have hfwnn : ∀ b ∈ bands, 0 ≤ fast_fraction_width W x0 x1 b := by
    intro b hb
    unfold fast_fraction_width
    exact pyInt_nonneg (harg b hb)
  have hargsum : (bands.map fun b => (W : ℚ) * ((b.2 - b.1) / (x1 - x0))).sum = W := by
    rw [sum_map_mul_left, hfrac1, mul_one]
  have hfwsum : (bands.map (fast_fraction_width W x0 x1)) =
      bands.map fun b => ⌊(W : ℚ) * ((b.2 - b.1) / (x1 - x0))⌋ :=
    List.map_congr_left hfwfloor
  refine ⟨hfrac1, ?_, ?_, ?_⟩
  · rw [project_image_fast_arr prims el proj W H hcrs, hbands,
      ncols_hstack H.toNat (by omega)]
    rw [List.map_reverse, List.sum_reverse, List.map_map, List.map_map]
    rw [List.map_congr_left (fun b _ => ?_), sum_toNat_of_nonneg bands _ hfwnn]
    show (((fast_band prims el proj W H el.xs.length el.ys.length
        (prims.determine_bounds el.xs el.ys el.crs).2 b).2.2).getD 0 []).length =
      (fast_fraction_width W x0 x1 b).toNat
    rw [fast_band_block_width _ _ _ _ _ _ _ _ _ (by omega), hxr]
  · rw [hfwsum]
    calc (bands.map fun b => ⌊(W : ℚ) * ((b.2 - b.1) / (x1 - x0))⌋).sum
        ≤ ⌊(bands.map fun b => (W : ℚ) * ((b.2 - b.1) / (x1 - x0))).sum⌋ :=
          sum_floor_le bands _
      _ = W := by rw [hargsum, Int.floor_intCast]
  · have hne : bands ≠ [] := by
      intro hb0
      rw [hb0] at hcover
      simp at hcover
      linarith
    have hgt := sum_floor_gt bands (fun b => (W : ℚ) * ((b.2 - b.1) / (x1 - x0))) hne
    rw [hargsum] at hgt
    rw [hfwsum]
    exact_mod_cast hgt

/-- C1 witness for the amended statement, at the concrete two-band raster. -/
theorem fast_width_allocation_witness :
    (([((90 : ℚ), (180 : ℚ)), (-180, -90)].map
        fun b => (b.2 - b.1) / ((270 : ℚ) - 90)).sum = 1)
    ∧ ncols (project_image_fast cPrims (some 3) (some 1) googleMercator cImg).arr =
        (([((90 : ℚ), (180 : ℚ)), (-180, -90)].map
          (fast_fraction_width 3 90 270)).sum).toNat
    ∧ ([((90 : ℚ), (180 : ℚ)), (-180, -90)].map
        (fast_fraction_width 3 90 270)).sum ≤ 3
    ∧ 3 - (([((90 : ℚ), (180 : ℚ)), (-180, -90)] : List (ℚ × ℚ)).length : ℤ) <
        ([((90 : ℚ), (180 : ℚ)), (-180, -90)].map
          (fast_fraction_width 3 90 270)).sum :=
  fast_width_allocation cPrims cImg googleMercator 3 1 90 270
    [(90, 180), (-180, -90)] (by decide) rfl (by norm_num) rfl (by norm_num)
    (by norm_num) (by norm_num) (by norm_num)

/-- C3: evaluation of the clone crs bookkeeping at the failing input.  With no
crs override and a CRS-aware new_type class requested, the element's crs is
not written into the overrides (isinstance(new_type, _Element) is False for a
class object, so only an absent new_type triggers propagation), contradicting
the claim; with new_type absent it is propagated. -/
theorem clone_crs_not_propagated_for_new_type :
    clone_overrides_crs ⟨5⟩ (.cls true) none = none
    ∧ clone_overrides_crs ⟨5⟩ .none_ none = some ⟨5⟩ := by
  constructor <;> rfl

/-- C4: _Element.__init__ raises iff a supplied and an inferred CRS are both
present and differ; when they agree, or only one of them exists, construction
proceeds with that CRS in the keyword arguments (an absent entry means the
parameter default applies, which is the supplied-nothing, inferred-nothing
case only). -/
theorem init_crs_mismatch_spec (d : InitPayload) (s : CRS) :
    (∀ i, inferred_crs d = some i → i ≠ s →
      element_init_crs d (some s) =
        .error "Supplied coordinate reference system must match crs of the data.")
    ∧ (∀ i, inferred_crs d = some i →
        element_init_crs d none = .ok (some i))
    ∧ (∀ i, inferred_crs d = some i → i = s →
        element_init_crs d (some s) = .ok (some i))
    ∧ (inferred_crs d = none → element_init_crs d (some s) = .ok (some s)) := by
  refine ⟨?_, ?_, ?_, ?_⟩
  · intro i hi hne
    simp [element_init_crs, hi, Option.some_inj, hne]
  · intro i hi
    simp [element_init_crs, hi]
  · intro i hi he
    subst he
    simp [element_init_crs, hi]
  · intro hn
    simp [element_init_crs, hn]

/-- C4 witness: the three outcomes at concrete payloads and CRS values. -/
theorem init_crs_mismatch_spec_witness :
    element_init_crs (.feature ⟨2⟩) (some ⟨3⟩) =
      .error "Supplied coordinate reference system must match crs of the data."
    ∧ element_init_crs (.feature ⟨2⟩) none = .ok (some ⟨2⟩)
    ∧ element_init_crs (.feature ⟨2⟩) (some ⟨2⟩) = .ok (some ⟨2⟩)
    ∧ element_init_crs .other (some ⟨3⟩) = .ok (some ⟨3⟩) :=
  ⟨(init_crs_mismatch_spec (.feature ⟨2⟩) ⟨3⟩).1 ⟨2⟩ rfl (by decide),
   (init_crs_mismatch_spec (.feature ⟨2⟩) ⟨3⟩).2.1 ⟨2⟩ rfl,
   (init_crs_mismatch_spec (.feature ⟨2⟩) ⟨2⟩).2.2.1 ⟨2⟩ rfl rfl,
   (init_crs_mismatch_spec .other ⟨3⟩).2.2.2 rfl⟩

/-- C5: evaluation of WMTS.__init__ at the failing input.  Constructing a
WMTS element from a raw WebMapTileService handle with no crs keyword does not
raise: the guard reads self.crs before initialization, obtaining the truthy
class default PlateCarree, so the missing-CRS branch is dead and construction
succeeds with no crs entry (the PlateCarree parameter default then applies). -/
theorem wmts_missing_crs_guard_dead :
    wmts_init [.wmtsService] none = .ok none := by
  rfl

theorem dsTruthy_some {ds : DSet} (hds : ds.rows ≠ []) :
    dsTruthy (some ds) = true := by
  show (!ds.rows.isEmpty) = true
  cases hr : ds.rows with
  | nil => exact absurd hr hds
  | cons a l => rfl

theorem from_records_loop_shapes_drop (ds : DSet) (hds : ds.rows ≠ [])
    (onMap : List (String × String)) (vdim : Option String)
    (ddims index kdims : List String) (vk : Option String) (i : ℕ)
    (recs : List SRecord) :
    (from_records_loop (some ds) onMap vdim ddims index kdims true vk i recs).1.map
        Prod.snd =
      (recs.filter fun r => !((ds.select (selection_of onMap r)).rows.isEmpty)).map
        fun r => ⟨r.geometry,
          rowGet ((ds.select (selection_of onMap r)).rows.headD []) (vdim.getD ""), vk⟩ := by
  have ht := dsTruthy_some hds
  induction recs generalizing i with
  | nil => rfl
  | cons r t ih =>
    cases hsel : ((ds.select (selection_of onMap r)).rows).isEmpty with
    | true => simp [from_records_loop, from_records_step, ht, hsel, ih]
    | false => simp [from_records_loop, from_records_step, ht, hsel, ih]

theorem from_records_loop_shapes_keep (ds : DSet) (hds : ds.rows ≠ [])
    (onMap : List (String × String)) (vdim : Option String)
    (ddims index kdims : List String) (vk : Option String) (i : ℕ)
    (recs : List SRecord) :
    (from_records_loop (some ds) onMap vdim ddims index kdims false vk i recs).1.map
        Prod.snd =
      recs.map fun r => ⟨r.geometry,
        (if !((ds.select (selection_of onMap r)).rows.isEmpty) then
          rowGet ((ds.select (selection_of onMap r)).rows.headD []) (vdim.getD "")
        else Val.nan), vk⟩ := by
  have ht := dsTruthy_some hds
  induction recs generalizing i with
  | nil => rfl
  | cons r t ih =>
    cases hsel : ((ds.select (selection_of onMap r)).rows).isEmpty with
    | true =>
      simp [from_records_loop, from_records_step, ht, hsel, ih]
      cases hrow : ((ds.select (selection_of onMap r)).rows) with
      | nil => simp
      | cons a l => rw [hrow] at hsel; simp at hsel
    | false =>
      simp [from_records_loop, from_records_step, ht, hsel, ih]
      cases hrow : ((ds.select (selection_of onMap r)).rows) with
      | nil => rw [hrow] at hsel; simp at hsel
      | cons a l => simp

theorem map_snd_enum_renumber (l : List (List (Option Val) × ShapeOut)) :
    ((l.enum.map fun p => (some (Val.num p.1) :: p.2.1, p.2.2)).map Prod.snd) =
      l.map Prod.snd := by
  rw [List.map_map]
  rw [show (Prod.snd ∘ fun p : ℕ × (List (Option Val) × ShapeOut) =>
      (some (Val.num p.1) :: p.2.1, p.2.2)) = (Prod.snd ∘ Prod.snd) from rfl]
  rw [← List.map_map, List.enum_map_snd]

theorem overlay_of_map_snd (kdims : List String)
    (res : List (List (Option Val) × ShapeOut) × Bool) :
    (overlay_of kdims res).data.map Prod.snd = res.1.map Prod.snd := by
  unfold overlay_of
  cases res.2
  · rfl
  · simp only [if_true]
    exact map_snd_enum_renumber res.1

/-- C6: merging a record stream against a (nonempty) dataset with a resolved
value dimension: with drop_missing the output Shapes are exactly those of the
records whose merge selection matches a dataset row, and without drop_missing
every record yields a Shape, an unmatched one getting level NaN. -/
theorem from_records_drop_missing_spec (recs : List SRecord) (ds : DSet)
    (onMap : List (String × String)) (value : Option String) (v : String)
    (index : List String)
    (hds : ds.rows ≠ []) (hon : onMap ≠ [])
    (hv : dsGetDim (some ds) value = some v) :
    (∃ ov, from_records recs (some ds) onMap value index true = .ok ov ∧
      ov.data.map Prod.snd =
        (recs.filter fun r => !((ds.select (selection_of onMap r)).rows.isEmpty)).map
          fun r => ⟨r.geometry,
            rowGet ((ds.select (selection_of onMap r)).rows.headD []) v, some v⟩)
    ∧ (∃ ov, from_records recs (some ds) onMap value index false = .ok ov ∧
      ov.data.map Prod.snd = recs.map fun r => ⟨r.geometry,
        (if !((ds.select (selection_of onMap r)).rows.isEmpty) then
          rowGet ((ds.select (selection_of onMap r)).rows.headD []) v
        else Val.nan), some v⟩) := by
  have ht := dsTruthy_some hds
  constructor
  · rw [from_records, if_neg (by simp [hon]), if_neg (by simp [hv])]
    refine ⟨_, rfl, ?_⟩
    simp only [overlay_of_map_snd]
    rw [from_records_loop_shapes_drop ds hds]
    simp [hv, ht]
  · rw [from_records, if_neg (by simp [hon]), if_neg (by simp [hv])]
    refine ⟨_, rfl, ?_⟩
    simp only [overlay_of_map_snd]
    rw [from_records_loop_shapes_keep ds hds]
    simp [hv, ht]

/-- C6 witness: a one-row dataset merged with a matching and a non-matching
record, in both drop_missing modes. -/
theorem from_records_drop_missing_spec_witness :
    (∃ ov, from_records [wRecord1, wRecord2] (some wDataset) [("id", "id")]
        (some "pop") [] true = .ok ov ∧
      ov.data.map Prod.snd =
        ([wRecord1, wRecord2].filter fun r =>
          !((wDataset.select (selection_of [("id", "id")] r)).rows.isEmpty)).map
          fun r => ⟨r.geometry,
            rowGet ((wDataset.select (selection_of [("id", "id")] r)).rows.headD [])
              "pop", some "pop"⟩)
    ∧ (∃ ov, from_records [wRecord1, wRecord2] (some wDataset) [("id", "id")]
        (some "pop") [] false = .ok ov ∧
      ov.data.map Prod.snd = [wRecord1, wRecord2].map fun r => ⟨r.geometry,
        (if !((wDataset.select (selection_of [("id", "id")] r)).rows.isEmpty) then
          rowGet ((wDataset.select (selection_of [("id", "id")] r)).rows.headD [])
            "pop"
        else Val.nan), some "pop"⟩) :=
  from_records_drop_missing_spec [wRecord1, wRecord2] wDataset [("id", "id")]
    (some "pop") "pop" [] (by decide) (by decide) (by decide)

/-- C7 counterexample: an empty dataset is falsy in Python, so the
value-dimension check of from_records is skipped entirely: with a dataset
whose dimensions do not contain the requested value dimension pop but whose
row list is empty, no error is raised and a Shape is constructed (with the
level parameter left at its default). -/
theorem from_records_empty_dataset_counterexample :
    from_records [wRecord1] (some wEmptyDataset) [("id", "id")] (some "pop")
        [] false =
      .ok ⟨["Index"], [([some (Val.num 0)], ⟨101, Val.none_, none⟩)]⟩ := by
  rfl

/-- C7 (amended): from_records raises the merge-mapping error whenever a
dataset (even an empty one) is supplied without a mapping, and raises the
value-dimension error whenever the supplied dataset is nonempty (truthy) and
the requested value dimension does not resolve; both errors are independent of
the record stream, so no record is consumed and no Shape constructed.  With an
empty (falsy) dataset the value-dimension check is skipped. -/
theorem from_records_merge_errors (recs : List SRecord) (ds : DSet)
    (onMap : List (String × String)) (value : Option String)
    (index : List String) (dm : Bool) :
    (from_records recs (some ds) [] value index dm =
      .error "To merge dataset with shapes mapping must define attribute(s) to merge on.")
    ∧ (ds.rows ≠ [] → onMap ≠ [] → dsGetDim (some ds) value = none →
      from_records recs (some ds) onMap value index dm =
        .error "Value dimension not found in dataset.") := by
  constructor
  · rw [from_records, if_pos (by simp)]
  · intro hds hon hv
    have ht := dsTruthy_some hds
    rw [from_records, if_neg (by simp [hon])]
    rw [if_pos (by simp [ht, hv])]

/-- C7 witness for the amended statement: both error paths at concrete
inputs. -/
theorem from_records_merge_errors_witness :
    (from_records [wRecord1] (some wDataset) [] (some "pop") [] true =
      .error "To merge dataset with shapes mapping must define attribute(s) to merge on.")
    ∧ (from_records [wRecord1] (some wDataset) [("id", "id")] (some "missing") [] true =
      .error "Value dimension not found in dataset.") :=
  ⟨(from_records_merge_errors [wRecord1] wDataset [("id", "id")] (some "pop") [] true).1,
   (from_records_merge_errors [wRecord1] wDataset [("id", "id")] (some "missing") [] true).2
     (by decide) (by decide) (by decide)⟩

/-- C8: a Shape with two key dimensions, one value dimension, distinct
dimension names, no stored ranges and a scalar level: range on the value
dimension replicates the level, dimension_values on the value dimension is the
one-element level list, and dimension_values on either positional dimension is
empty. -/
theorem shape_scalar_level_accessors (s : ShapeSelf) (sup : Val × Val) (q : ℚ)
    (k0 k1 v : SDim)
    (hk : s.kdims = [k0, k1]) (hv : s.vdims = [v])
    (hvr : v.range = (Val.none_, Val.none_))
    (_hk0r : k0.range = (Val.none_, Val.none_))
    (_hk1r : k1.range = (Val.none_, Val.none_))
    (h0 : k0.name ≠ v.name) (h1 : k1.name ≠ v.name)
    (hl : s.level = Val.num q) :
    ShapeSelf.range sup s 2 true = (Val.num q, Val.num q)
    ∧ s.dimension_values 2 = [Val.num q]
    ∧ s.dimension_values 0 = []
    ∧ s.dimension_values 1 = [] := by
  have hdims : s.dims = [k0, k1, v] := by simp [ShapeSelf.dims, hk, hv]
  have e0 : (v.name == k0.name) = false := beq_eq_false_iff_ne.mpr (Ne.symm h0)
  have e1 : (v.name == k1.name) = false := beq_eq_false_iff_ne.mpr (Ne.symm h1)
  have f0 : (k0.name == v.name) = false := beq_eq_false_iff_ne.mpr h0
  have f1 : (k1.name == v.name) = false := beq_eq_false_iff_ne.mpr h1
  refine ⟨?_, ?_, ?_, ?_⟩
  · simp [ShapeSelf.range, ShapeSelf.get_dimension, ShapeSelf.get_dimension_index,
      hdims, hvr, hl, List.findIdx_cons, f0, f1]
  · simp [ShapeSelf.dimension_values, ShapeSelf.get_dimension, hdims, hv, hl]
  · simp [ShapeSelf.dimension_values, ShapeSelf.get_dimension, hdims, hv, e0]
  · simp [ShapeSelf.dimension_values, ShapeSelf.get_dimension, hdims, hv, e1]

/-- C8 witness: the accessors on the concrete Shape wShape with level 7. -/
theorem shape_scalar_level_accessors_witness :
    ShapeSelf.range (Val.none_, Val.none_) wShape 2 true = (Val.num 7, Val.num 7)
    ∧ wShape.dimension_values 2 = [Val.num 7]
    ∧ wShape.dimension_values 0 = []
    ∧ wShape.dimension_values 1 = [] :=
  shape_scalar_level_accessors wShape (Val.none_, Val.none_) 7
    ⟨"Longitude", (.none_, .none_)⟩ ⟨"Latitude", (.none_, .none_)⟩
    ⟨"Level", (.none_, .none_)⟩ rfl rfl rfl rfl rfl (by decide) (by decide) rfl

theorem lookup_cons_self (k : String) (w : List ℚ) (t : List (String × List ℚ)) :
    ((k, w) :: t).lookup k = some w := by
  simp [List.lookup]

theorem lookup_cons_ne (k m : String) (w : List ℚ) (t : List (String × List ℚ))
    (h : m ≠ k) : ((k, w) :: t).lookup m = t.lookup m := by
  simp [List.lookup, beq_eq_false_iff_ne.mpr h]

theorem lookup_map_update_self (cols : List (String × List ℚ)) (n : String)
    (v : List ℚ) :
    ((cols.map fun p => if p.1 = n then (n, v) else p).lookup n) =
      if (cols.lookup n).isSome then some v else none := by
  induction cols with
  | nil => rfl
  | cons p t ih =>
    obtain ⟨k, w⟩ := p
    by_cases hk : k = n
    · subst hk
      rw [List.map_cons, if_pos (show (k, w).1 = k from rfl)]
      rw [lookup_cons_self, lookup_cons_self]
      rfl
    · have hnk : n ≠ k := fun h2 => hk h2.symm
      rw [List.map_cons, if_neg (show ¬((k, w).1 = n) from hk)]
      rw [lookup_cons_ne _ _ _ _ hnk, lookup_cons_ne _ _ _ _ hnk, ih]

theorem lookup_map_update_ne (cols : List (String × List ℚ)) (n m : String)
    (v : List ℚ) (hnm : m ≠ n) :
    ((cols.map fun p => if p.1 = n then (n, v) else p).lookup m) =
      cols.lookup m := by
  induction cols with
  | nil => rfl
  | cons p t ih =>
    obtain ⟨k, w⟩ := p
    by_cases hk : k = n
    · subst hk
      rw [List.map_cons, if_pos (show (k, w).1 = k from rfl)]
      rw [lookup_cons_ne _ _ _ _ hnm, lookup_cons_ne _ _ _ _ hnm, ih]
    · rw [List.map_cons, if_neg (show ¬((k, w).1 = n) from hk)]
      by_cases hkm : m = k
      · subst hkm
        rw [lookup_cons_self, lookup_cons_self]
      · rw [lookup_cons_ne _ _ _ _ hkm, lookup_cons_ne _ _ _ _ hkm, ih]

theorem lookup_append_single_self (cols : List (String × List ℚ)) (n : String)
    (v : List ℚ) (h : cols.lookup n = none) :
    ((cols ++ [(n, v)]).lookup n) = some v := by
  induction cols with
  | nil => rw [List.nil_append, lookup_cons_self]
  | cons p t ih =>
    obtain ⟨k, w⟩ := p
    by_cases hk : n = k
    · subst hk
      rw [lookup_cons_self] at h
      cases h
    · rw [lookup_cons_ne _ _ _ _ hk] at h
      rw [List.cons_append, lookup_cons_ne _ _ _ _ hk]
      exact ih h

theorem lookup_append_single_ne (cols : List (String × List ℚ)) (n m : String)
    (v : List ℚ) (hnm : m ≠ n) :
    ((cols ++ [(n, v)]).lookup m) = cols.lookup m := by
  induction cols with
  | nil => rw [List.nil_append, lookup_cons_ne _ _ _ _ hnm]
  | cons p t ih =>
    obtain ⟨k, w⟩ := p
    rw [List.cons_append]
    by_cases hkm : m = k
    · subst hkm
      rw [lookup_cons_self, lookup_cons_self]
    · rw [lookup_cons_ne _ _ _ _ hkm, lookup_cons_ne _ _ _ _ hkm, ih]

theorem lookup_updateCol_self (cols : List (String × List ℚ)) (n : String)
    (v : List ℚ) : (updateCol cols n v).lookup n = some v := by
  unfold updateCol
  by_cases h : (cols.lookup n).isSome
  · rw [if_pos h, lookup_map_update_self, if_pos h]
  · rw [if_neg h]
    exact lookup_append_single_self cols n v (Option.not_isSome_iff_eq_none.mp h)

theorem lookup_updateCol_ne (cols : List (String × List ℚ)) (n m : String)
    (v : List ℚ) (hnm : m ≠ n) :
    (updateCol cols n v).lookup m = cols.lookup m := by
  unfold updateCol
  split
  · exact lookup_map_update_ne cols n m v hnm
  · exact lookup_append_single_ne cols n m v hnm

theorem updateCol_length (cols : List (String × List ℚ)) (n : String)
    (v : List ℚ) (N : ℕ) (hlen : ∀ p ∈ cols, p.2.length = N)
    (hv : v.length = N) : ∀ p ∈ updateCol cols n v, p.2.length = N := by
  intro p hp
  unfold updateCol at hp
  split at hp
  · obtain ⟨q2, hq, hpq⟩ := List.mem_map.mp hp
    by_cases hqn : q2.1 = n
    · rw [if_pos hqn] at hpq
      rw [← hpq]
      exact hv
    · rw [if_neg hqn] at hpq
      rw [← hpq]
      exact hlen q2 hq
  · rcases List.mem_append.mp hp with h2 | h2
    · exact hlen p h2
    · rw [List.mem_singleton.mp h2]
      exact hv

theorem lookup_mem {cols : List (String × List ℚ)} {n : String} {v : List ℚ}
    (h : cols.lookup n = some v) : (n, v) ∈ cols := by
  induction cols with
  | nil => cases h
  | cons p t ih =>
    obtain ⟨k, w⟩ := p
    by_cases hk : n = k
    · subst hk
      rw [lookup_cons_self] at h
      obtain rfl : w = v := by injection h
      exact List.mem_cons_self _ _
    · rw [lookup_cons_ne _ _ _ _ hk] at h
      exact List.mem_cons_of_mem _ (ih h)

/-- C9: project_points keeps the dimension list and column names, attaches the
target projection, passes every non-positional column through unchanged,
writes the pointwise-transformed x and y back into the two positional columns
(preserving row order, as the transform is applied index by index), and
preserves the common column length, i.e. the row count. -/
theorem project_points_columns_spec (prims : GeoPrims) (proj : CRS)
    (el : PointsEl) (xd yd : String) (rest : List String)
    (xcol ycol : List ℚ) (N : ℕ)
    (hdims : el.dims = xd :: yd :: rest)
    (hxy : xd ≠ yd)
    (hx : el.cols.lookup xd = some xcol)
    (hy : el.cols.lookup yd = some ycol)
    (hlen : ∀ p ∈ el.cols, p.2.length = N) :
    (project_points prims proj el).dims = el.dims
    ∧ (project_points prims proj el).crs = proj
    ∧ (∀ d, d ≠ xd → d ≠ yd →
        (project_points prims proj el).cols.lookup d = el.cols.lookup d)
    ∧ (project_points prims proj el).cols.lookup xd =
        some (List.zipWith (fun x y => (prims.transform_point proj el.crs x y).1)
          xcol ycol)
    ∧ (project_points prims proj el).cols.lookup yd =
        some (List.zipWith (fun x y => (prims.transform_point proj el.crs x y).2)
          xcol ycol)
    ∧ (∀ p ∈ (project_points prims proj el).cols, p.2.length = N) := by
  have hxlen : xcol.length = N := hlen _ (lookup_mem hx)
  have hylen : ycol.length = N := hlen _ (lookup_mem hy)
  have hxd : el.dims.getD 0 "" = xd := by rw [hdims]; rfl
  have hyd : el.dims.getD 1 "" = yd := by rw [hdims]; rfl
  have hxs : colGet el.cols xd = xcol := by
    unfold colGet; rw [hx]; rfl
  have hys : colGet el.cols yd = ycol := by
    unfold colGet; rw [hy]; rfl
  have hcols : (project_points prims proj el).cols =
      updateCol (updateCol el.cols xd
        ((List.zipWith (fun x y => prims.transform_point proj el.crs x y) xcol ycol).map
          Prod.fst)) yd
        ((List.zipWith (fun x y => prims.transform_point proj el.crs x y) xcol ycol).map
          Prod.snd) := by
    simp only [project_points]
    rw [hxd, hyd, hxs, hys]
  refine ⟨rfl, rfl, ?_, ?_, ?_, ?_⟩
  · intro d hdx hdy
    rw [hcols, lookup_updateCol_ne _ _ _ _ hdy, lookup_updateCol_ne _ _ _ _ hdx]
  · rw [hcols, lookup_updateCol_ne _ _ _ _ hxy, lookup_updateCol_self,
      List.map_zipWith]
  · rw [hcols, lookup_updateCol_self, List.map_zipWith]
  · rw [hcols]
    have hzlen : (List.zipWith (fun x y => prims.transform_point proj el.crs x y)
        xcol ycol).length = N := by
      rw [List.length_zipWith, hxlen, hylen, Nat.min_self]
    apply updateCol_length
    · apply updateCol_length _ _ _ _ hlen
      rw [List.length_map, hzlen]
    · rw [List.length_map, hzlen]

/-- C9 witness: projecting a concrete two-row Points element through the
identity transform. -/
theorem project_points_columns_spec_witness :
    (project_points cPrims googleMercator wPoints).dims = wPoints.dims
    ∧ (project_points cPrims googleMercator wPoints).crs = googleMercator
    ∧ (∀ d, d ≠ "Longitude" → d ≠ "Latitude" →
        (project_points cPrims googleMercator wPoints).cols.lookup d =
          wPoints.cols.lookup d)
    ∧ (project_points cPrims googleMercator wPoints).cols.lookup "Longitude" =
        some (List.zipWith
          (fun x y => (cPrims.transform_point googleMercator wPoints.crs x y).1)
          [1, 2] [3, 4])
    ∧ (project_points cPrims googleMercator wPoints).cols.lookup "Latitude" =
        some (List.zipWith
          (fun x y => (cPrims.transform_point googleMercator wPoints.crs x y).2)
          [1, 2] [3, 4])
    ∧ (∀ p ∈ (project_points cPrims googleMercator wPoints).cols, p.2.length = 2) :=
  project_points_columns_spec cPrims googleMercator wPoints "Longitude" "Latitude"
    ["v"] [1, 2] [3, 4] 2 rfl (by decide) rfl rfl (by decide)

theorem is_geographic_body_len_ne (el : GEl) (kd : List String)
    (h : (if kd ≠ [] then kd.length else el.kdimsOf.length) ≠ 2) :
    is_geographic_body el kd = false := by
  by_cases hkd : kd ≠ []
  · rw [if_pos hkd] at h
    simp [is_geographic_body, hkd, h]
  · rw [if_neg hkd] at h
    simp [is_geographic_body, hkd, h]

/-- C10: is_geographic returns False whenever the selected key dimensions do
not number exactly two, and on an overlay its verdict is computed from the
overlay's last element alone: it is invariant under changing the other members
and the overlay's own key dimensions, and agrees with the verdict on the last
element itself whenever that element is not again an overlay. -/
theorem is_geographic_spec :
    (∀ (e : GEl) (kd : List String),
      selected_kdim_count e kd ≠ 2 → is_geographic e kd = false)
    ∧ (∀ (elems1 elems2 : List GEl) (l : GEl) (k1 k2 kd : List String),
        is_geographic (.overlay elems1 l k1) kd =
          is_geographic (.overlay elems2 l k2) kd)
    ∧ (∀ (elems : List GEl) (l : GEl) (k1 kd : List String),
        l.isOverlay = false →
        is_geographic (.overlay elems l k1) kd = is_geographic l kd) := by
  refine ⟨?_, ?_, ?_⟩
  · intro e kd h
    cases e with
    | leaf el => exact is_geographic_body_len_ne (.leaf el) kd h
    | overlay es l k => exact is_geographic_body_len_ne l kd h
  · intro elems1 elems2 l k1 k2 kd
    rfl
  · intro elems l k1 kd h
    cases l with
    | leaf el => rfl
    | overlay es l2 k2 => simp [GEl.isOverlay] at h

/-- C10 witness: a one-key-dimension element is not geographic, and two
overlays sharing the last element agree with each other and with the last
element itself. -/
theorem is_geographic_spec_witness :
    is_geographic (.leaf wLeaf1) [] = false
    ∧ is_geographic (.overlay [] (.leaf wLeaf) ["k"]) ["Longitude"] =
        is_geographic (.overlay [.leaf wLeaf1] (.leaf wLeaf) []) ["Longitude"]
    ∧ is_geographic (.overlay [] (.leaf wLeaf) ["k"]) [] =
        is_geographic (.leaf wLeaf) [] :=
  ⟨is_geographic_spec.1 (.leaf wLeaf1) [] (by decide),
   is_geographic_spec.2.1 [] [.leaf wLeaf1] (.leaf wLeaf) ["k"] [] ["Longitude"],
   is_geographic_spec.2.2 [] (.leaf wLeaf) ["k"] [] rfl⟩

end GV
